import Mathlib

/-!
Verification of the core analysis logic of the llm-token-visualizer
repository against its natural-language specification.

The embedding translates the TypeScript sources:
  * `src/utils/mathUtils.ts` — rank / cumulative-probability / statistics
    helpers (namespace `MathUtils` below);
  * `src/services/AnalysisEngine.ts` — the sequential token scan,
    per-token failure recovery and statistics aggregation (namespace
    `AnalysisEngine`);
  * `src/services/TokenizerService.ts` — the display decoder
    (namespace `TokenizerService`);
  * `src/utils/textUtils.ts` — `preprocessText` (namespace `TextUtils`);
  * `src/utils/constants.ts` — `MODEL_CONFIG.INITIAL_TOKENS_COUNT`.

Modelling conventions:
  * JavaScript numbers are embedded as `ℚ` (the claims under scrutiny
    concern ordering, exact sums and exact zeros, all of which the
    rational embedding represents faithfully for the inputs involved);
    token ids and ranks are `ℕ`.
  * `Array.prototype.sort` is stable (ECMAScript 2019), so the
    comparator-based sorts of the source are embedded as stable
    insertion sorts over the same keys.
  * Code that can throw is embedded in `Except String`; a `try/catch`
    becomes a `match` on the `Except` value.  External collaborators
    (the ONNX predictor `modelService.runInference`, the tokenizer
    encode/decode calls) are parameters of the functions that consume
    them, typed `Except`-fallibly exactly where the source awaits a
    call that can reject.
  * Asynchrony is sequential in the source (every `await` is awaited in
    program order, one analysis runs at a time), so the scan is a pure
    list construction and the `isAnalyzing` flag is explicit state.
  * Progress callbacks are side effects with no influence on results or
    control flow (each callback invocation is wrapped in its own
    try/catch in the source) and are not modelled.
-/

namespace MathUtils

/-- One `{prob, index}` pair of `calculateTokenRank` /
`calculateCumulativeProbability` in `mathUtils.ts`: the probability first,
the token index second. -/
abbrev ProbPair : Type := ℚ × ℕ

/-- `Array.from(probabilities).map((prob, index) => ({ prob, index }))`:
each entry of the distribution paired with its index. -/
def pairsOf (probabilities : List ℚ) : List ProbPair :=
  (List.range probabilities.length).map (fun index => (probabilities.getD index 0, index))

/-- Insert a pair into a list that is sorted by probability descending,
in front of the first element whose probability is `≤` its own.  This is
the insertion step of a stable descending sort: an element inserted from
the left of the original array passes over strictly greater probabilities
only, so among equal probabilities the original (index) order survives —
exactly the behaviour of the stable `sort((a, b) => b.prob - a.prob)` of
the source. -/
def insertDesc (p : ProbPair) : List ProbPair → List ProbPair
  | [] => [p]
  | q :: qs => if q.1 ≤ p.1 then p :: q :: qs else q :: insertDesc p qs

/-- Stable sort by probability descending
(`probabilityPairs.sort((a, b) => b.prob - a.prob)` of the source). -/
def sortPairsDesc : List ProbPair → List ProbPair
  | [] => []
  | p :: ps => insertDesc p (sortPairsDesc ps)

/-- `calculateTokenRank` of `mathUtils.ts`: sort the `(prob, index)` pairs
by probability descending, then `findIndex` of the pair carrying the
target index; `findIndex` returning `-1` (here: `findIdx` returning the
list length) falls back to `probabilities.length`. -/
def calculateTokenRank (probabilities : List ℚ) (targetTokenId : ℕ) : ℕ :=
  let probabilityPairs := sortPairsDesc (pairsOf probabilities)
  let rank := probabilityPairs.findIdx (fun pair => pair.2 == targetTokenId)
  if rank = probabilityPairs.length then probabilities.length else rank

/-- `calculateCumulativeProbability` of `mathUtils.ts`: sort the pairs by
probability descending and sum the probabilities of the first
`min rank length` entries (the loop runs while `i < rank && i < length`,
which is `List.take rank`). -/
def calculateCumulativeProbability (probabilities : List ℚ) (rank : ℕ) : ℚ :=
  let probabilityPairs := sortPairsDesc (pairsOf probabilities)
  (((probabilityPairs.take rank).map Prod.fst)).sum

/-- The strict precedence order the descending stable sort realises:
`p` comes strictly ahead of `q` when its probability is larger, or equal
with a smaller original index.  This is the ordering the specification
describes in words ("sort by probability descending; ties are broken by
the pairs' original index order under a stable sort"). -/
def pairBefore (p q : ProbPair) : Prop :=
  q.1 < p.1 ∨ (p.1 = q.1 ∧ p.2 < q.2)

instance (p q : ProbPair) : Decidable (pairBefore p q) := by
  unfold pairBefore; infer_instance

/-- Modelled from the spec's words, independently of the sort the source
runs: the zero-based position of `targetId` in the order sorted by
probability descending with ties keeping original index order is the
number of indices judged strictly ahead of it — those of larger
probability, or of equal probability and smaller index. -/
def rankSpec (d : List ℚ) (targetId : ℕ) : ℕ :=
  ((List.range d.length).filter
    (fun j => decide (d.getD targetId 0 < d.getD j 0 ∨
      (d.getD j 0 = d.getD targetId 0 ∧ j < targetId)))).length

/-- `calculateTopKAccuracy` of `mathUtils.ts`. -/
def calculateTopKAccuracy (ranks : List ℕ) (k : ℕ) : ℚ :=
  if ranks.length = 0 then 0
  else ((ranks.filter (fun rank => rank < k)).length : ℚ) / (ranks.length : ℚ)

/-- Insertion step of the ascending numeric sort
`[...values].sort((a, b) => a - b)`. -/
def insertAsc (x : ℚ) : List ℚ → List ℚ
  | [] => [x]
  | y :: ys => if x ≤ y then x :: y :: ys else y :: insertAsc x ys

/-- Ascending numeric sort of `calculateStatistics` in `mathUtils.ts`. -/
def sortAsc : List ℚ → List ℚ
  | [] => []
  | x :: xs => insertAsc x (sortAsc xs)

/-- Result record of `calculateStatistics` in `mathUtils.ts`.  The `std`
field of the source (the square root of the variance) is irrational in
general and is consumed by no caller in the repository, so it is left out
of the rational embedding; every field below is computed exactly as the
source computes it. -/
structure BasicStatistics where
  mean : ℚ
  median : ℚ
  min : ℚ
  max : ℚ
deriving DecidableEq, Repr

/-- `calculateStatistics` of `mathUtils.ts` (basic statistics of a number
array): zeros for the empty array, otherwise mean, median (mean of the
two middle values for an even count), min and max over the sorted copy. -/
def calculateStatistics (values : List ℚ) : BasicStatistics :=
  if values.length = 0 then ⟨0, 0, 0, 0⟩
  else
    let sorted := sortAsc values
    let mean := values.sum / (values.length : ℚ)
    let median :=
      if sorted.length % 2 = 0 then
        (sorted.getD (sorted.length / 2 - 1) 0 + sorted.getD (sorted.length / 2) 0) / 2
      else sorted.getD (sorted.length / 2) 0
    ⟨mean, median, sorted.getD 0 0, sorted.getD (sorted.length - 1) 0⟩

end MathUtils

namespace AnalysisEngine

/-- `MODEL_CONFIG.INITIAL_TOKENS_COUNT` of `src/utils/constants.ts`. -/
def INITIAL_TOKENS_COUNT : ℕ := 3

/-- `AnalysisResult` of `src/types/analysis` as the engine constructs it:
`rank`, `probability`, `cumulativeProbability` are nullable. -/
structure AnalysisResult where
  position : ℕ
  token : String
  tokenId : ℕ
  rank : Option ℕ
  probability : Option ℚ
  cumulativeProbability : Option ℚ
  isInitial : Bool
deriving DecidableEq, Repr

/-- `AnalysisStatistics` of `src/types/analysis`. -/
structure AnalysisStatistics where
  totalTokens : ℕ
  predictedTokens : ℕ
  top1Accuracy : ℚ
  top5Accuracy : ℚ
  top10Accuracy : ℚ
  averageRank : ℚ
  averageCumulativeProbability : ℚ
  medianRank : ℚ
  medianCumulativeProbability : ℚ
deriving DecidableEq, Repr

/-- The result the first loop of `analyzeTokenSequence` pushes for a
position of the no-prediction prefix: `isInitial = true`, all prediction
fields null.  `decodeTok` stands for the external
`tokenizerService.decodeToken`. -/
def initialResult (decodeTok : ℕ → String) (tokenIds : List ℕ) (i : ℕ) : AnalysisResult :=
  { position := i
    token := decodeTok (tokenIds.getD i 0)
    tokenId := tokenIds.getD i 0
    rank := none
    probability := none
    cumulativeProbability := none
    isInitial := true }

/-- The result the second loop of `analyzeTokenSequence` pushes for a
predicted position `i`: run the predictor on `tokenIds.slice(0, i)`; on
success record rank, probability (`probabilities[targetTokenId] || 0`)
and cumulative probability; on a predictor failure (the `catch` branch)
record null prediction fields with `isInitial = false`.  `runInference`
stands for the external `modelService.runInference`. -/
def predictedResult (runInference : List ℕ → Except String (List ℚ))
    (decodeTok : ℕ → String) (tokenIds : List ℕ) (i : ℕ) : AnalysisResult :=
  let contextTokens := tokenIds.take i
  let targetTokenId := tokenIds.getD i 0
  let token := decodeTok targetTokenId
  match runInference contextTokens with
  | Except.ok probabilities =>
      let rank := MathUtils.calculateTokenRank probabilities targetTokenId
      let probability := probabilities.getD targetTokenId 0
      let cumulativeProbability := MathUtils.calculateCumulativeProbability probabilities rank
      { position := i
        token := token
        tokenId := targetTokenId
        rank := some rank
        probability := some probability
        cumulativeProbability := some cumulativeProbability
        isInitial := false }
  | Except.error _ =>
      { position := i
        token := token
        tokenId := targetTokenId
        rank := none
        probability := none
        cumulativeProbability := none
        isInitial := false }

/-- `AnalysisEngine.analyzeTokenSequence`: the no-prediction results for
positions `0 .. min(INITIAL_TOKENS_COUNT, length) - 1` followed by one
predicted (or per-position-recovered) result for every remaining
position, in position order. -/
def analyzeTokenSequence (runInference : List ℕ → Except String (List ℚ))
    (decodeTok : ℕ → String) (tokenIds : List ℕ) : List AnalysisResult :=
  let initialTokensCount := min INITIAL_TOKENS_COUNT tokenIds.length
  ((List.range initialTokensCount).map (initialResult decodeTok tokenIds))
    ++ ((List.range' initialTokensCount (tokenIds.length - initialTokensCount)).map
          (predictedResult runInference decodeTok tokenIds))

/-- `AnalysisEngine.calculateStatistics`: filter the predicted set
(`!isInitial && rank !== null`); all-zero statistics apart from
`totalTokens = results.length` when it is empty; otherwise top-k
accuracies over the ranks and mean/median over ranks and non-null
cumulative probabilities. -/
def calculateStatistics (results : List AnalysisResult) : AnalysisStatistics :=
  let predictedResults := results.filter (fun r => !r.isInitial && r.rank.isSome)
  if predictedResults.length = 0 then
    { totalTokens := results.length
      predictedTokens := 0
      top1Accuracy := 0
      top5Accuracy := 0
      top10Accuracy := 0
      averageRank := 0
      averageCumulativeProbability := 0
      medianRank := 0
      medianCumulativeProbability := 0 }
  else
    let ranks : List ℕ := predictedResults.map (fun r => r.rank.getD 0)
    let cumulativeProbs :=
      (predictedResults.filter (fun r => r.cumulativeProbability.isSome)).map
        (fun r => r.cumulativeProbability.getD 0)
    let rankStats := MathUtils.calculateStatistics (ranks.map (fun n => (n : ℚ)))
    let cumulativeProbStats :=
      if 0 < cumulativeProbs.length then MathUtils.calculateStatistics cumulativeProbs
      else ⟨0, 0, 0, 0⟩
    { totalTokens := results.length
      predictedTokens := predictedResults.length
      top1Accuracy := MathUtils.calculateTopKAccuracy ranks 1
      top5Accuracy := MathUtils.calculateTopKAccuracy ranks 5
      top10Accuracy := MathUtils.calculateTopKAccuracy ranks 10
      averageRank := rankStats.mean
      averageCumulativeProbability := cumulativeProbStats.mean
      medianRank := rankStats.median
      medianCumulativeProbability := cumulativeProbStats.median }

end AnalysisEngine

namespace TextUtils

/-- The first replace of `preprocessText`: left-to-right,
non-overlapping replacement of each CRLF by LF. -/
def replaceCRLF : List Char → List Char
  | [] => []
  | [c] => [c]
  | c :: d :: rest =>
    if c = (Char.ofNat 13) ∧ d = (Char.ofNat 10) then (Char.ofNat 10) :: replaceCRLF rest
    else c :: replaceCRLF (d :: rest)

/-- Remaining CR characters become LF. -/
def replaceCR (l : List Char) : List Char :=
  l.map (fun c => if c = (Char.ofNat 13) then (Char.ofNat 10) else c)

/-- Tabs become spaces. -/
def replaceTab (l : List Char) : List Char :=
  l.map (fun c => if c = (Char.ofNat 9) then ' ' else c)

/-- `.replace(/[ ]+/g, " ")`: runs of literal spaces collapse to one
space. -/
def collapseSpaces : List Char → List Char
  | [] => []
  | [c] => [c]
  | c :: d :: rest =>
    if c = ' ' ∧ d = ' ' then collapseSpaces (d :: rest)
    else c :: collapseSpaces (d :: rest)

/-- `String.prototype.trim` on the characters the earlier passes can
leave at the ends (spaces and line feeds; `Char.isWhitespace` covers the
ASCII whitespace JavaScript strips — exotic Unicode space characters are
outside the embedding). -/
def trimChars (l : List Char) : List Char :=
  ((l.dropWhile Char.isWhitespace).reverse.dropWhile Char.isWhitespace).reverse

/-- `preprocessText` of `src/utils/textUtils.ts`: normalise line endings,
tabs to spaces, collapse space runs, trim. -/
def preprocessText (text : String) : String :=
  String.mk (trimChars (collapseSpaces (replaceTab (replaceCR (replaceCRLF text.toList)))))

end TextUtils

namespace AnalysisEngine

/-- The mutable `isAnalyzing` flag of the `AnalysisEngine` instance. -/
structure EngineState where
  isAnalyzing : Bool
deriving DecidableEq, Repr

/-- `AnalysisEngine.analyzeText`, state-passing: the reentrancy guard
throws `Analysis already in progress` before the `try` block (so the
returned state is untouched); inside the `try` the text is preprocessed
(`Text is empty after preprocessing` when the clean text is empty, a
falsy check), encoded by the external tokenizer (`encode`), rejected via
`No tokens generated from text` when no tokens result, truncated to
`config?.maxLength || tokenIds.length` tokens and scanned by
`analyzeTokenSequence`; the `catch` wraps every error message in
`Analysis failed: …` and the `finally` clears the flag on every path
that entered the `try`. -/
def analyzeText (encode : String → Except String (List ℕ))
    (runInference : List ℕ → Except String (List ℚ))
    (decodeTok : ℕ → String) (maxLength : Option ℕ)
    (st : EngineState) (text : String) :
    EngineState × Except String (List AnalysisResult) :=
  if st.isAnalyzing then
    (st, Except.error "Analysis already in progress")
  else
    let finish : Except String (List AnalysisResult) →
        EngineState × Except String (List AnalysisResult) :=
      fun r => (⟨false⟩, r)
    let cleanText := TextUtils.preprocessText text
    if cleanText = "" then
      finish (Except.error "Analysis failed: Text is empty after preprocessing")
    else
      match encode cleanText with
      | Except.error e => finish (Except.error ("Analysis failed: " ++ e))
      | Except.ok tokenIds =>
        if tokenIds.length = 0 then
          finish (Except.error "Analysis failed: No tokens generated from text")
        else
          let maxLen :=
            match maxLength with
            | some m => if m = 0 then tokenIds.length else m
            | none => tokenIds.length
          let limitedTokenIds := tokenIds.take maxLen
          finish (Except.ok (analyzeTokenSequence runInference decodeTok limitedTokenIds))

end AnalysisEngine

namespace TokenizerService

/-- `TokenizerService.decodeToken`.  The service state is the loaded
inner tokenizer, `none` before `loadTokenizer` succeeds; a loaded inner
tokenizer is its (possibly failing) single-token decode call.  Not
loaded: throw `Tokenizer not loaded…`.  Loaded: return the inner
decode's text, or on any inner failure the angle-bracketed id
(the `catch` branch). -/
def decodeToken (tokenizer : Option (ℕ → Except String String)) (tokenId : ℕ) :
    Except String String :=
  match tokenizer with
  | none => Except.error "Tokenizer not loaded. Call loadTokenizer() first."
  | some innerDecode =>
    match innerDecode tokenId with
    | Except.ok s => Except.ok s
    | Except.error _ => Except.ok ("<" ++ toString tokenId ++ ">")

end TokenizerService

/-! ## Properties of the pair sort and of `calculateTokenRank` -/

namespace MathUtils

theorem pairBefore_irrefl (p : ProbPair) : ¬ pairBefore p p := by
  unfold pairBefore
  simp

theorem pairBefore_asymm {p q : ProbPair} (h : pairBefore p q) : ¬ pairBefore q p := by
  rcases h with h | ⟨h1, h2⟩
  · rintro (h' | ⟨h1', h2'⟩)
    · exact absurd h (not_lt_of_lt h')
    · exact absurd h (by rw [h1']; exact lt_irrefl _)
  · rintro (h' | ⟨h1', h2'⟩)
    · exact absurd h' (by rw [h1]; exact lt_irrefl _)
    · omega

theorem insertDesc_perm (p : ProbPair) (l : List ProbPair) :
    (insertDesc p l).Perm (p :: l) := by
  induction l with
  | nil => simp [insertDesc]
  | cons q qs ih =>
    by_cases h : q.1 ≤ p.1
    · simp [insertDesc, h]
    · simp only [insertDesc, if_neg h]
      exact (ih.cons q).trans (List.Perm.swap p q qs)

theorem sortPairsDesc_perm (l : List ProbPair) : (sortPairsDesc l).Perm l := by
  induction l with
  | nil => simp [sortPairsDesc]
  | cons p ps ih =>
    exact (insertDesc_perm p (sortPairsDesc ps)).trans (ih.cons p)

theorem insertDesc_pairwise {p : ProbPair} {l : List ProbPair}
    (hidx : ∀ q ∈ l, p.2 < q.2) (hl : l.Pairwise pairBefore) :
    (insertDesc p l).Pairwise pairBefore := by
  induction l with
  | nil => simp [insertDesc, pairBefore]
  | cons q qs ih =>
    rcases List.pairwise_cons.mp hl with ⟨hq, hqs⟩
    by_cases h : q.1 ≤ p.1
    · simp only [insertDesc, if_pos h]
      refine List.pairwise_cons.mpr ⟨?_, hl⟩
      intro r hr
      rcases List.mem_cons.mp hr with rfl | hr2
      · rcases lt_or_eq_of_le h with h1 | h1
        · exact Or.inl h1
        · exact Or.inr ⟨h1.symm, hidx r (List.mem_cons_self r qs)⟩
      · rcases hq r hr2 with h1 | ⟨h1, h2⟩
        · exact Or.inl (lt_of_lt_of_le h1 h)
        · rcases lt_or_eq_of_le h with h3 | h3
          · exact Or.inl (by rw [← h1]; exact h3)
          · exact Or.inr ⟨by rw [← h3, h1], hidx r (List.mem_cons_of_mem q hr2)⟩
    · simp only [insertDesc, if_neg h]
      refine List.pairwise_cons.mpr
        ⟨?_, ih (fun r hr => hidx r (List.mem_cons_of_mem q hr)) hqs⟩
      intro r hr
      have hmem := (insertDesc_perm p qs).mem_iff.mp hr
      rcases List.mem_cons.mp hmem with rfl | hr2
      · exact Or.inl (lt_of_not_le h)
      · exact hq r hr2

theorem sortPairsDesc_pairwise {l : List ProbPair}
    (h : l.Pairwise (fun a b => a.2 < b.2)) :
    (sortPairsDesc l).Pairwise pairBefore := by
  induction l with
  | nil => simp [sortPairsDesc]
  | cons p ps ih =>
    rcases List.pairwise_cons.mp h with ⟨hp, hps⟩
    exact insertDesc_pairwise
      (fun q hq => hp q ((sortPairsDesc_perm ps).mem_iff.mp hq)) (ih hps)

theorem pairsOf_idx_pairwise (d : List ℚ) :
    (pairsOf d).Pairwise (fun a b => a.2 < b.2) := by
  unfold pairsOf
  rw [List.pairwise_map]
  simpa using List.pairwise_lt_range d.length

theorem pairsOf_idx_ne (d : List ℚ) :
    (pairsOf d).Pairwise (fun a b => a.2 ≠ b.2) :=
  (pairsOf_idx_pairwise d).imp (fun h => Nat.ne_of_lt h)

theorem sortedPairs_idx_ne (d : List ℚ) :
    (sortPairsDesc (pairsOf d)).Pairwise (fun a b => a.2 ≠ b.2) :=
  ((sortPairsDesc_perm (pairsOf d)).pairwise_iff (fun h => h.symm)).mpr (pairsOf_idx_ne d)

theorem sortedPairs_pairwise (d : List ℚ) :
    (sortPairsDesc (pairsOf d)).Pairwise pairBefore :=
  sortPairsDesc_pairwise (pairsOf_idx_pairwise d)

theorem mem_pairsOf (d : List ℚ) (t : ℕ) (ht : t < d.length) :
    (d.getD t 0, t) ∈ pairsOf d := by
  unfold pairsOf
  exact List.mem_map.mpr ⟨t, List.mem_range.mpr ht, rfl⟩

theorem snd_lt_of_mem_pairsOf {d : List ℚ} {p : ProbPair} (h : p ∈ pairsOf d) :
    p.2 < d.length := by
  unfold pairsOf at h
  rcases List.mem_map.mp h with ⟨j, hj, rfl⟩
  simpa using List.mem_range.mp hj

theorem findIdx_pairwise_filter :
    ∀ (l : List ProbPair) (x : ProbPair),
      l.Pairwise pairBefore → l.Pairwise (fun a b => a.2 ≠ b.2) → x ∈ l →
      l.findIdx (fun p => p.2 == x.2) =
        (l.filter (fun p => decide (pairBefore p x))).length := by
  intro l
  induction l with
  | nil => intro x _ _ hx; simp at hx
  | cons p ps ih =>
    intro x hb hne hx
    rcases List.pairwise_cons.mp hb with ⟨hbp, hbps⟩
    rcases List.pairwise_cons.mp hne with ⟨hnep, hneps⟩
    rcases List.mem_cons.mp hx with hxp | hx2
    · rw [hxp]
      rw [List.findIdx_cons]
      have hp : (p.2 == p.2) = true := by simp
      rw [hp]
      have h1 : (decide (pairBefore p p)) = false := by
        simp [pairBefore_irrefl p]
      have h2 : ps.filter (fun q => decide (pairBefore q p)) = [] := by
        rw [List.filter_eq_nil_iff]
        intro a ha
        simp only [decide_eq_true_eq]
        exact pairBefore_asymm (hbp a ha)
      rw [List.filter_cons, if_neg (by simp [h1]), h2]
      rfl
    · have hne2 : p.2 ≠ x.2 := hnep x hx2
      rw [List.findIdx_cons]
      have hp : (p.2 == x.2) = false := by simpa using hne2
      rw [hp]
      have h1 : (decide (pairBefore p x)) = true := by
        simp only [decide_eq_true_eq]
        exact hbp x hx2
      rw [List.filter_cons, if_pos (by simp [h1])]
      simp only [cond_false, List.length_cons]
      rw [ih x hbps hneps hx2]

theorem calculateTokenRank_found (d : List ℚ) (t : ℕ) (ht : t < d.length) :
    calculateTokenRank d t =
      ((sortPairsDesc (pairsOf d)).filter
        (fun p => decide (pairBefore p (d.getD t 0, t)))).length := by
  have hmem : (d.getD t 0, t) ∈ sortPairsDesc (pairsOf d) :=
    (sortPairsDesc_perm (pairsOf d)).mem_iff.mpr (mem_pairsOf d t ht)
  have hidx := findIdx_pairwise_filter (sortPairsDesc (pairsOf d)) (d.getD t 0, t)
    (sortedPairs_pairwise d) (sortedPairs_idx_ne d) hmem
  have hlt : ((sortPairsDesc (pairsOf d)).filter
      (fun p => decide (pairBefore p (d.getD t 0, t)))).length <
      (sortPairsDesc (pairsOf d)).length := by
    rw [List.length_filter_lt_length_iff_exists]
    exact ⟨(d.getD t 0, t), hmem, by simp [pairBefore_irrefl]⟩
  unfold calculateTokenRank
  simp only []
  rw [hidx]
  rw [if_neg (by omega)]

theorem filterLength_sorted_eq (d : List ℚ) (x : ProbPair) :
    ((sortPairsDesc (pairsOf d)).filter (fun p => decide (pairBefore p x))).length =
      ((List.range d.length).filter
        (fun j => decide (pairBefore (d.getD j 0, j) x))).length := by
  rw [((sortPairsDesc_perm (pairsOf d)).filter
    (fun p => decide (pairBefore p x))).length_eq]
  unfold pairsOf
  rw [List.filter_map, List.length_map]
  rfl

end MathUtils

namespace MathUtils

theorem rank_scenario_eval :
    calculateTokenRank [1/10, 5/10, 3/10, 1/10] 2 = 1 := by
  norm_num [calculateTokenRank, pairsOf, sortPairsDesc, insertDesc,
    List.findIdx, List.findIdx.go]
  all_goals decide

theorem cumulative_scenario_eval :
    calculateCumulativeProbability [1/10, 5/10, 3/10, 1/10] 1 = 5/10 := by
  norm_num [calculateCumulativeProbability, pairsOf, sortPairsDesc, insertDesc]

/-- Claim C2: for every probability distribution and every target id in
range, `calculateTokenRank` returns the zero-based position of the target
when the `(probability, index)` pairs are sorted by probability
descending with ties keeping original index order (`rankSpec`, the count
of indices strictly ahead in that order); in particular the distribution
`[0.1, 0.5, 0.3, 0.1]` with target id `2` gets rank `1`, and
`calculateCumulativeProbability` of that distribution at rank `1` is
`0.5`. -/
theorem calculateTokenRank_matches_sorted_position (d : List ℚ) (targetId : ℕ)
    (ht : targetId < d.length) :
    calculateTokenRank d targetId = rankSpec d targetId ∧
    calculateTokenRank [1/10, 5/10, 3/10, 1/10] 2 = 1 ∧
    calculateCumulativeProbability [1/10, 5/10, 3/10, 1/10] 1 = 5/10 := by
  refine ⟨?_, rank_scenario_eval, cumulative_scenario_eval⟩
  rw [calculateTokenRank_found d targetId ht,
    filterLength_sorted_eq d (d.getD targetId 0, targetId)]
  unfold rankSpec
  have hpt : ∀ j : ℕ,
      (decide (pairBefore (d.getD j 0, j) (d.getD targetId 0, targetId))) =
      (decide (d.getD targetId 0 < d.getD j 0 ∨
        (d.getD j 0 = d.getD targetId 0 ∧ j < targetId))) := by
    intro j
    simp [pairBefore]
  simp only [hpt]

theorem calculateTokenRank_matches_sorted_position_witness :
    MathUtils.calculateTokenRank [1/10, 5/10, 3/10, 1/10] 2 =
      MathUtils.rankSpec [1/10, 5/10, 3/10, 1/10] 2 ∧
    MathUtils.calculateTokenRank [1/10, 5/10, 3/10, 1/10] 2 = 1 ∧
    MathUtils.calculateCumulativeProbability [1/10, 5/10, 3/10, 1/10] 1 = 5/10 :=
  calculateTokenRank_matches_sorted_position [1/10, 5/10, 3/10, 1/10] 2 (by norm_num)

/-- Claim C3 counterexample: at the out-of-range target id `5` on a
distribution of length `2`, `calculateTokenRank` returns the ordinary
value `2` (the distribution length); it raises no `InvalidTokenId`
condition — the source has no failure path at all. -/
theorem calculateTokenRank_outOfRange_counterexample :
    MathUtils.calculateTokenRank [(1:ℚ)/2, 1/2] 5 = 2 := by
  norm_num [MathUtils.calculateTokenRank, MathUtils.pairsOf, MathUtils.sortPairsDesc,
    MathUtils.insertDesc, List.findIdx, List.findIdx.go]
  all_goals decide

/-- Claim C3 as amended: for every target id outside
`[0, len(distribution))` the `findIndex` over the sorted pairs misses
(every pair carries an in-range index), and `calculateTokenRank` returns
the distribution length — an out-of-band sentinel, never an error. -/
theorem calculateTokenRank_outOfRange_returns_length (d : List ℚ) (t : ℕ)
    (ht : d.length ≤ t) : calculateTokenRank d t = d.length := by
  have hall : ∀ p ∈ sortPairsDesc (pairsOf d), ((fun pair => pair.2 == t) p) = false := by
    intro p hp
    have hlt := snd_lt_of_mem_pairsOf ((sortPairsDesc_perm (pairsOf d)).mem_iff.mp hp)
    simp only [beq_eq_false_iff_ne, ne_eq]
    omega
  unfold calculateTokenRank
  simp only []
  rw [List.findIdx_eq_length.mpr hall]
  simp

theorem calculateTokenRank_outOfRange_witness :
    MathUtils.calculateTokenRank [(1:ℚ)/3, 2/3] 3 = 2 := by
  simpa using MathUtils.calculateTokenRank_outOfRange_returns_length
    [(1:ℚ)/3, 2/3] 3 (by norm_num)

/-- Claim C10: under the in-range precondition the returned rank lies in
`[0, len(distribution))`; the fallback branch (`findIndex` missing, the
rank `-1` check) is unreachable because the sorted pair list carries
every index of the distribution exactly once. -/
theorem calculateTokenRank_inRange_bounded (d : List ℚ) (t : ℕ) (ht : t < d.length) :
    calculateTokenRank d t < d.length ∧
    (sortPairsDesc (pairsOf d)).findIdx (fun pair => pair.2 == t) ≠
      (sortPairsDesc (pairsOf d)).length ∧
    ((sortPairsDesc (pairsOf d)).map Prod.snd).Perm (List.range d.length) := by
  have hlen : (sortPairsDesc (pairsOf d)).length = d.length := by
    rw [(sortPairsDesc_perm (pairsOf d)).length_eq]
    unfold pairsOf
    rw [List.length_map, List.length_range]
  have hmem : (d.getD t 0, t) ∈ sortPairsDesc (pairsOf d) :=
    (sortPairsDesc_perm (pairsOf d)).mem_iff.mpr (mem_pairsOf d t ht)
  have hidx := findIdx_pairwise_filter (sortPairsDesc (pairsOf d)) (d.getD t 0, t)
    (sortedPairs_pairwise d) (sortedPairs_idx_ne d) hmem
  have hlt : ((sortPairsDesc (pairsOf d)).filter
      (fun p => decide (pairBefore p (d.getD t 0, t)))).length <
      (sortPairsDesc (pairsOf d)).length := by
    rw [List.length_filter_lt_length_iff_exists]
    exact ⟨(d.getD t 0, t), hmem, by simp [pairBefore_irrefl]⟩
  refine ⟨?_, ?_, ?_⟩
  · rw [calculateTokenRank_found d t ht]
    omega
  · have hidx2 : (sortPairsDesc (pairsOf d)).findIdx (fun pair => pair.2 == t) =
        ((sortPairsDesc (pairsOf d)).filter
          (fun p => decide (pairBefore p (d.getD t 0, t)))).length := by
      simpa using hidx
    rw [hidx2]
    omega
  · have hperm := (sortPairsDesc_perm (pairsOf d)).map Prod.snd
    have h2 : (pairsOf d).map Prod.snd = List.range d.length := by
      unfold pairsOf
      rw [List.map_map]
      simp only [Function.comp_def]
      simp
    rw [← h2]
    exact hperm

theorem calculateTokenRank_inRange_bounded_witness :
    MathUtils.calculateTokenRank [(2:ℚ)/5, 1/5, 2/5] 1 < 3 := by
  simpa using
    (MathUtils.calculateTokenRank_inRange_bounded [(2:ℚ)/5, 1/5, 2/5] 1 (by norm_num)).1

end MathUtils

/-! ## Cumulative probability (claim C8) -/

namespace MathUtils

theorem mem_d_of_mem_fst_sorted {d : List ℚ} {x : ℚ}
    (hx : x ∈ (sortPairsDesc (pairsOf d)).map Prod.fst) : x ∈ d := by
  rcases List.mem_map.mp hx with ⟨p, hp, rfl⟩
  have hp2 : p ∈ pairsOf d := (sortPairsDesc_perm (pairsOf d)).mem_iff.mp hp
  unfold pairsOf at hp2
  rcases List.mem_map.mp hp2 with ⟨j, hj, rfl⟩
  have hjlt : j < d.length := List.mem_range.mp hj
  show d.getD j 0 ∈ d
  rw [List.getD_eq_getElem d 0 hjlt]
  exact List.getElem_mem hjlt

/-- Claim C8: for every distribution of non-negative entries,
`calculateCumulativeProbability` at rank `0` is `0`, and it is
non-decreasing in the rank. -/
theorem calculateCumulativeProbability_monotone (d : List ℚ)
    (hpos : ∀ x ∈ d, 0 ≤ x) (r1 r2 : ℕ) (hr : r1 ≤ r2) :
    calculateCumulativeProbability d 0 = 0 ∧
    calculateCumulativeProbability d r1 ≤ calculateCumulativeProbability d r2 := by
  constructor
  · simp [calculateCumulativeProbability]
  · unfold calculateCumulativeProbability
    simp only []
    rw [List.map_take, List.map_take]
    set L := (sortPairsDesc (pairsOf d)).map Prod.fst with hL
    have hnn : ∀ x ∈ L, 0 ≤ x := fun x hx => hpos x (mem_d_of_mem_fst_sorted hx)
    have h0 : r2 = r1 + (r2 - r1) := by omega
    rw [h0, List.take_add, List.sum_append]
    have hrest : 0 ≤ ((L.drop r1).take (r2 - r1)).sum :=
      List.sum_nonneg (fun x hx => hnn x (List.drop_subset r1 L (List.take_subset _ _ hx)))
    linarith

theorem calculateCumulativeProbability_monotone_witness :
    MathUtils.calculateCumulativeProbability [(1:ℚ), 2] 0 = 0 ∧
    MathUtils.calculateCumulativeProbability [(1:ℚ), 2] 1 ≤
      MathUtils.calculateCumulativeProbability [(1:ℚ), 2] 2 :=
  MathUtils.calculateCumulativeProbability_monotone [(1:ℚ), 2]
    (by
      intro x hx
      simp only [List.mem_cons, List.not_mem_nil, or_false] at hx
      rcases hx with rfl | rfl <;> norm_num) 1 2 (by norm_num)

end MathUtils

/-! ## Statistics aggregation (claim C4) -/

namespace AnalysisEngine

/-- Claim C4 counterexample: on a one-element, all-initial result list the
predicted set is empty, yet `calculateStatistics` returns
`totalTokens = 1`, not `0` — so not every numeric field of the returned
statistics is zero. -/
theorem calculateStatistics_allInitial_counterexample :
    (AnalysisEngine.calculateStatistics
      [{ position := 0, token := "a", tokenId := 5, rank := none,
         probability := none, cumulativeProbability := none,
         isInitial := true }]).totalTokens ≠ 0 := by
  simp [AnalysisEngine.calculateStatistics]

/-- Claim C4 as amended: for every result list whose predicted set
(`isInitial = false` with non-null rank) is empty, every numeric field of
the returned statistics is exactly `0` except `totalTokens`, which the
source sets to `results.length` in both branches — hence exactly `0` for
the empty input list but equal to the list length for a non-empty
all-initial input. -/
theorem calculateStatistics_emptyPredicted (results : List AnalysisResult)
    (h : results.filter (fun r => !r.isInitial && r.rank.isSome) = []) :
    calculateStatistics results =
      { totalTokens := results.length
        predictedTokens := 0
        top1Accuracy := 0
        top5Accuracy := 0
        top10Accuracy := 0
        averageRank := 0
        averageCumulativeProbability := 0
        medianRank := 0
        medianCumulativeProbability := 0 } := by
  simp [calculateStatistics, h]

theorem calculateStatistics_emptyPredicted_witness :
    AnalysisEngine.calculateStatistics [] =
      { totalTokens := 0
        predictedTokens := 0
        top1Accuracy := 0
        top5Accuracy := 0
        top10Accuracy := 0
        averageRank := 0
        averageCumulativeProbability := 0
        medianRank := 0
        medianCumulativeProbability := 0 } :=
  AnalysisEngine.calculateStatistics_emptyPredicted [] rfl

end AnalysisEngine

/-! ## The sequential scan (claims C1 and C5) -/

namespace AnalysisEngine

theorem analyzeTokenSequence_length (f : List ℕ → Except String (List ℚ))
    (decodeTok : ℕ → String) (tokenIds : List ℕ) :
    (analyzeTokenSequence f decodeTok tokenIds).length = tokenIds.length := by
  unfold analyzeTokenSequence
  simp only [List.length_append, List.length_map, List.length_range, List.length_range']
  omega

theorem analyzeTokenSequence_getElem_initial (f : List ℕ → Except String (List ℚ))
    (decodeTok : ℕ → String) (tokenIds : List ℕ) (j : ℕ)
    (hj : j < min INITIAL_TOKENS_COUNT tokenIds.length) :
    (analyzeTokenSequence f decodeTok tokenIds)[j]? =
      some (initialResult decodeTok tokenIds j) := by
  unfold analyzeTokenSequence
  simp only []
  rw [List.getElem?_append_left (by simpa using hj)]
  rw [List.getElem?_map, List.getElem?_range hj]
  rfl

theorem analyzeTokenSequence_getElem_predicted (f : List ℕ → Except String (List ℚ))
    (decodeTok : ℕ → String) (tokenIds : List ℕ) (j : ℕ)
    (h1 : min INITIAL_TOKENS_COUNT tokenIds.length ≤ j) (h2 : j < tokenIds.length) :
    (analyzeTokenSequence f decodeTok tokenIds)[j]? =
      some (predictedResult f decodeTok tokenIds j) := by
  unfold analyzeTokenSequence
  simp only []
  rw [List.getElem?_append_right (by simpa using h1)]
  simp only [List.length_map, List.length_range]
  rw [List.getElem?_map,
    List.getElem?_range' (min INITIAL_TOKENS_COUNT tokenIds.length) 1
      (show j - min INITIAL_TOKENS_COUNT tokenIds.length <
        tokenIds.length - min INITIAL_TOKENS_COUNT tokenIds.length by omega)]
  simp only [Option.map_some']
  have hj : min INITIAL_TOKENS_COUNT tokenIds.length +
      1 * (j - min INITIAL_TOKENS_COUNT tokenIds.length) = j := by omega
  rw [hj]

/-- Claim C5: every non-empty token sequence analysed with
`initialTokensCount = 3` yields exactly one result per position; with
`prefixLen = min 3 (length)`, every position below `prefixLen` carries
`isInitial = true` and null rank / probability / cumulative probability,
and every position from `prefixLen` on carries `isInitial = false`. -/
theorem analyzeTokenSequence_initialSegment
    (f : List ℕ → Except String (List ℚ)) (decodeTok : ℕ → String)
    (tokenIds : List ℕ) (_hne : tokenIds ≠ []) :
    (analyzeTokenSequence f decodeTok tokenIds).length = tokenIds.length ∧
    (∀ j, j < min INITIAL_TOKENS_COUNT tokenIds.length →
      (analyzeTokenSequence f decodeTok tokenIds)[j]? =
        some { position := j, token := decodeTok (tokenIds.getD j 0),
               tokenId := tokenIds.getD j 0, rank := none, probability := none,
               cumulativeProbability := none, isInitial := true }) ∧
    (∀ j, min INITIAL_TOKENS_COUNT tokenIds.length ≤ j → j < tokenIds.length →
      ((analyzeTokenSequence f decodeTok tokenIds)[j]?.map AnalysisResult.isInitial) =
        some false) := by
  refine ⟨analyzeTokenSequence_length f decodeTok tokenIds, ?_, ?_⟩
  · intro j hj
    rw [analyzeTokenSequence_getElem_initial f decodeTok tokenIds j hj]
    rfl
  · intro j h1 h2
    rw [analyzeTokenSequence_getElem_predicted f decodeTok tokenIds j h1 h2]
    simp only [Option.map_some']
    unfold predictedResult
    cases hf : f (tokenIds.take j) <;> simp [hf]

theorem analyzeTokenSequence_initialSegment_witness :
    (AnalysisEngine.analyzeTokenSequence (fun _ => Except.ok [1]) (fun _ => "w")
      [5, 6, 7, 8, 9]).length = 5 ∧
    ((AnalysisEngine.analyzeTokenSequence (fun _ => Except.ok [1]) (fun _ => "w")
      [5, 6, 7, 8, 9])[2]? =
        some { position := 2, token := "w", tokenId := 7, rank := none,
               probability := none, cumulativeProbability := none, isInitial := true }) ∧
    (((AnalysisEngine.analyzeTokenSequence (fun _ => Except.ok [1]) (fun _ => "w")
      [5, 6, 7, 8, 9])[3]?).map AnalysisEngine.AnalysisResult.isInitial = some false) := by
  have h := AnalysisEngine.analyzeTokenSequence_initialSegment
    (fun _ => Except.ok [1]) (fun _ => "w") [5, 6, 7, 8, 9] (by simp)
  exact ⟨h.1, h.2.1 2 (by decide), h.2.2 3 (by decide) (by decide)⟩

/-- Claim C1: if the predictor call for a position `i` at or after the
prefix fails, the scan appends for `i` a result with `isInitial = false`
and null rank / probability / cumulative probability, leaves every
earlier position's result unchanged (it agrees with the scan under any
predictor that agrees on the earlier contexts), continues with the
positions after `i`, and still returns exactly one result per position —
the failure never escapes the scan, whose embedding is a total
function. -/
theorem analyzeTokenSequence_partialFailure
    (f g : List ℕ → Except String (List ℚ)) (decodeTok : ℕ → String)
    (tokenIds : List ℕ) (i : ℕ) (e : String)
    (hpre : min INITIAL_TOKENS_COUNT tokenIds.length ≤ i) (hi : i < tokenIds.length)
    (herr : f (tokenIds.take i) = Except.error e)
    (hagree : ∀ j, j < i → g (tokenIds.take j) = f (tokenIds.take j)) :
    (analyzeTokenSequence f decodeTok tokenIds).length = tokenIds.length ∧
    (analyzeTokenSequence f decodeTok tokenIds)[i]? =
      some { position := i, token := decodeTok (tokenIds.getD i 0),
             tokenId := tokenIds.getD i 0, rank := none, probability := none,
             cumulativeProbability := none, isInitial := false } ∧
    (∀ j, j < i → (analyzeTokenSequence f decodeTok tokenIds)[j]? =
      (analyzeTokenSequence g decodeTok tokenIds)[j]?) ∧
    (∀ j, i < j → j < tokenIds.length →
      (analyzeTokenSequence f decodeTok tokenIds)[j]? =
        some (predictedResult f decodeTok tokenIds j)) := by
  refine ⟨analyzeTokenSequence_length f decodeTok tokenIds, ?_, ?_, ?_⟩
  · rw [analyzeTokenSequence_getElem_predicted f decodeTok tokenIds i hpre hi]
    simp [predictedResult, herr]
  · intro j hj
    by_cases hjc : j < min INITIAL_TOKENS_COUNT tokenIds.length
    · rw [analyzeTokenSequence_getElem_initial f decodeTok tokenIds j hjc,
        analyzeTokenSequence_getElem_initial g decodeTok tokenIds j hjc]
    · push_neg at hjc
      have hjn : j < tokenIds.length := lt_trans hj hi
      rw [analyzeTokenSequence_getElem_predicted f decodeTok tokenIds j hjc hjn,
        analyzeTokenSequence_getElem_predicted g decodeTok tokenIds j hjc hjn]
      simp only [predictedResult]
      rw [hagree j hj]
  · intro j h1 h2
    exact analyzeTokenSequence_getElem_predicted f decodeTok tokenIds j (by omega) h2

theorem analyzeTokenSequence_partialFailure_witness :
    (AnalysisEngine.analyzeTokenSequence
      (fun ctx => if ctx.length == 4 then Except.error "boom" else Except.ok [1, 0, 0, 0, 0])
      (fun _ => "t") [0, 1, 2, 3, 4]).length = 5 ∧
    (AnalysisEngine.analyzeTokenSequence
      (fun ctx => if ctx.length == 4 then Except.error "boom" else Except.ok [1, 0, 0, 0, 0])
      (fun _ => "t") [0, 1, 2, 3, 4])[4]? =
      some { position := 4, token := "t", tokenId := 4, rank := none, probability := none,
             cumulativeProbability := none, isInitial := false } := by
  have h := AnalysisEngine.analyzeTokenSequence_partialFailure
    (fun ctx => if ctx.length == 4 then Except.error "boom" else Except.ok [1, 0, 0, 0, 0])
    (fun ctx => if ctx.length == 4 then Except.error "boom" else Except.ok [1, 0, 0, 0, 0])
    (fun _ => "t") [0, 1, 2, 3, 4] 4 "boom"
    (by decide) (by decide) (by rfl) (fun j hj => rfl)
  exact ⟨h.1, h.2.1⟩

end AnalysisEngine

/-! ## Whole-run preconditions of `analyzeText` (claims C6 and C7) -/

namespace AnalysisEngine

/-- Claim C6: whenever the preprocessed input yields zero tokens — the
cleaned text is empty, or the tokenizer returns an empty id list —
`analyzeText` fails with an empty-input error before any token is
processed: it returns no result list (so no `AnalysisResult` is ever
appended) and its outcome is the same under every predictor (so the
predictor is invoked for no position); it never returns an empty result
list silently. -/
theorem analyzeText_emptyInput
    (encode : String → Except String (List ℕ))
    (f g : List ℕ → Except String (List ℚ))
    (decodeTok : ℕ → String) (maxLength : Option ℕ)
    (st : EngineState) (text : String)
    (hst : st.isAnalyzing = false)
    (hempty : TextUtils.preprocessText text = "" ∨
      encode (TextUtils.preprocessText text) = Except.ok []) :
    (analyzeText encode f decodeTok maxLength st text =
        (⟨false⟩, Except.error "Analysis failed: Text is empty after preprocessing") ∨
      analyzeText encode f decodeTok maxLength st text =
        (⟨false⟩, Except.error "Analysis failed: No tokens generated from text")) ∧
    analyzeText encode f decodeTok maxLength st text =
      analyzeText encode g decodeTok maxLength st text := by
  by_cases hc : TextUtils.preprocessText text = ""
  · constructor
    · left
      simp [analyzeText, hst, hc]
    · simp [analyzeText, hst, hc]
  · rcases hempty with h | h
    · exact absurd h hc
    · constructor
      · right
        simp [analyzeText, hst, hc, h]
      · simp [analyzeText, hst, hc, h]

theorem analyzeText_emptyInput_witness :
    (AnalysisEngine.analyzeText (fun _ => Except.ok []) (fun _ => Except.ok [1])
        (fun _ => "a") none ⟨false⟩ "" =
        (⟨false⟩, Except.error "Analysis failed: Text is empty after preprocessing") ∨
      AnalysisEngine.analyzeText (fun _ => Except.ok []) (fun _ => Except.ok [1])
        (fun _ => "a") none ⟨false⟩ "" =
        (⟨false⟩, Except.error "Analysis failed: No tokens generated from text")) ∧
    AnalysisEngine.analyzeText (fun _ => Except.ok []) (fun _ => Except.ok [1])
      (fun _ => "a") none ⟨false⟩ "" =
      AnalysisEngine.analyzeText (fun _ => Except.ok []) (fun _ => Except.error "down")
        (fun _ => "a") none ⟨false⟩ "" :=
  AnalysisEngine.analyzeText_emptyInput (fun _ => Except.ok [])
    (fun _ => Except.ok [1]) (fun _ => Except.error "down") (fun _ => "a") none ⟨false⟩ ""
    rfl (Or.inl rfl)

/-- Claim C7: while one `analyzeText` run is in flight (the `isAnalyzing`
flag is set) a second call fails immediately with the
concurrent-analysis error, and the rejected call leaves the analyzer
state — and hence the in-flight run's eventual result — untouched (the
state is returned unchanged). -/
theorem analyzeText_reentrancy
    (encode : String → Except String (List ℕ))
    (runInference : List ℕ → Except String (List ℚ))
    (decodeTok : ℕ → String) (maxLength : Option ℕ)
    (st : EngineState) (text : String) (h : st.isAnalyzing = true) :
    analyzeText encode runInference decodeTok maxLength st text =
      (st, Except.error "Analysis already in progress") := by
  simp [analyzeText, h]

theorem analyzeText_reentrancy_witness :
    AnalysisEngine.analyzeText (fun _ => Except.ok [0]) (fun _ => Except.ok [1])
      (fun _ => "a") none ⟨true⟩ "hi" =
      (⟨true⟩, Except.error "Analysis already in progress") :=
  AnalysisEngine.analyzeText_reentrancy (fun _ => Except.ok [0]) (fun _ => Except.ok [1])
    (fun _ => "a") none ⟨true⟩ "hi" rfl

end AnalysisEngine

/-! ## The display decoder (claim C9) -/

namespace TokenizerService

/-- Claim C9 counterexample: before `loadTokenizer` succeeds the service
state holds no tokenizer, and `decodeToken` propagates a not-loaded
error instead of returning a placeholder string — so as stated, for
every token id, the operation does not "never fail". -/
theorem decodeToken_unloaded_counterexample :
    TokenizerService.decodeToken none 0 =
      Except.error "Tokenizer not loaded. Call loadTokenizer() first." := rfl

/-- Claim C9 as amended: on a service whose tokenizer is loaded,
`decodeToken` returns a string for every token id and never propagates
an error; whenever the inner decode fails, it returns the
angle-bracketed id placeholder instead of throwing.  (On an unloaded
service it throws the not-loaded error — the counterexample above.) -/
theorem decodeToken_loaded_never_fails (innerDecode : ℕ → Except String String)
    (tokenId : ℕ) :
    (TokenizerService.decodeToken (some innerDecode) tokenId).isOk = true ∧
    ((innerDecode tokenId).isOk = false →
      TokenizerService.decodeToken (some innerDecode) tokenId =
        Except.ok ("<" ++ toString tokenId ++ ">")) := by
  unfold TokenizerService.decodeToken
  cases h : innerDecode tokenId <;> simp [Except.isOk, Except.toBool, h]

end TokenizerService
